import Mathlib

/-!
Shallow embedding of the protocol core of the dRehm-configurator repository:
the MSP V1 binary frame codec (`msp.js`), the CLI mode arbiter (`cli.js`) and
the terminal capture logic (`tabs/terminal.js`), together with proofs of the
behavioural properties stated about them.

Bytes are modelled as `Nat`; the serial layer delivers `Uint8Array` chunks, so
every input byte is `< 256`, which theorems assume as an explicit hypothesis
where it matters.
-/

namespace DRehm

/-- Parser states of `MspParser` (`S_IDLE` … `S_CHECKSUM` in msp.js). -/
inductive PState where
  | sIdle
  | sHeaderM
  | sDir
  | sLen
  | sCmd
  | sPayload
  | sChecksum
deriving DecidableEq, Repr

/-- A decoded MSP message, as passed to `onMessage`: `{ cmd, payload }`. -/
structure Frame where
  cmd : Nat
  payload : List Nat
deriving DecidableEq, Repr

/-- The mutable fields of the `MspParser` class (msp.js constructor).
The `payload` scratch buffer (a `Uint8Array` in the source) is modelled as a
`List Nat`; `List.set` has exactly the out-of-bounds-silently-ignored
assignment semantics of a `Uint8Array` store. -/
structure MspParser where
  state : PState
  len : Nat
  cmd : Nat
  checksum : Nat
  payload : List Nat
  payloadIdx : Nat
deriving DecidableEq, Repr

/-- The freshly constructed parser (msp.js constructor field initialisers). -/
def MspParser.new : MspParser :=
  { state := .sIdle, len := 0, cmd := 0, checksum := 0, payload := [], payloadIdx := 0 }

/-- `MspParser.reset`: force state back to `S_IDLE`, leaving every scratch
field in place (the source resets only `this.state`). -/
def MspParser.reset (p : MspParser) : MspParser :=
  { p with state := .sIdle }

/-- `MspParser._processByte`: one step of the decoder state machine.  Returns
the updated parser and the frame passed to `onMessage`, if any.  The source's
`new Uint8Array(c)` allocation is `List.replicate c 0` (zero-filled, length
`c`), and `this.payload[this.payloadIdx++] = c` is `List.set` plus an
unconditional index increment. -/
def processByte (p : MspParser) (c : Nat) : MspParser × Option Frame :=
  match p.state with
  | .sIdle =>
      (if c = 0x24 then { p with state := .sHeaderM } else p, none)
  | .sHeaderM =>
      ({ p with state := if c = 0x4D then .sDir else .sIdle }, none)
  | .sDir =>
      (if c = 0x3E then { p with state := .sLen } else { p with state := .sIdle }, none)
  | .sLen =>
      ({ p with len := c, checksum := c, payload := List.replicate c 0,
                payloadIdx := 0, state := .sCmd }, none)
  | .sCmd =>
      ({ p with cmd := c, checksum := p.checksum ^^^ c,
                state := if p.len > 0 then .sPayload else .sChecksum }, none)
  | .sPayload =>
      ({ p with payload := p.payload.set p.payloadIdx c,
                payloadIdx := p.payloadIdx + 1,
                checksum := p.checksum ^^^ c,
                state := if p.payloadIdx + 1 ≥ p.len then .sChecksum else .sPayload }, none)
  | .sChecksum =>
      ({ p with state := .sIdle },
        if p.checksum &&& 0xFF = c then some ⟨p.cmd, p.payload⟩ else none)

/-- `MspParser.parse`: feed a chunk of bytes, in order, through
`_processByte`; collects the frames handed to `onMessage` in emission order. -/
def parse (p : MspParser) : List Nat → MspParser × List Frame
  | [] => (p, [])
  | c :: rest =>
      let s := processByte p c
      let r := parse s.1 rest
      (r.1, s.2.toList ++ r.2)

/-- Feed several chunks in sequence (repeated `parse` calls on one parser),
concatenating the emitted frames. -/
def parseChunks (p : MspParser) : List (List Nat) → MspParser × List Frame
  | [] => (p, [])
  | ch :: rest =>
      let s := parse p ch
      let r := parseChunks s.1 rest
      (r.1, s.2 ++ r.2)

/-- `mspEncode`: build the fixed 6-byte MSP V1 request frame
`$M< len=0 cmd checksum` with `checksum = (0 ^ cmd) & 0xFF`.  The result is a
`Uint8Array`, whose element stores reduce modulo 256. -/
def mspEncode (cmd : Nat) : List Nat :=
  [0x24, 0x4D, 0x3C, 0x00, cmd % 256, ((0 ^^^ cmd) &&& 0xFF) % 256]

/-- `readU8`: `payload[offset]` (in-range access on a `Uint8Array`). -/
def readU8 (payload : List Nat) (offset : Nat) : Nat :=
  payload.getD offset 0

/-- `readU16`: `payload[offset] | (payload[offset+1] << 8)` — little-endian
unsigned 16-bit.  For byte-valued entries the JS signed-32-bit `|` agrees with
`Nat.lor`, since the result fits in 16 bits. -/
def readU16 (payload : List Nat) (offset : Nat) : Nat :=
  payload.getD offset 0 ||| (payload.getD (offset + 1) 0 <<< 8)

/-- `readS16`: `val > 32767 ? val - 65536 : val` over `readU16`. -/
def readS16 (payload : List Nat) (offset : Nat) : Int :=
  let val := readU16 payload offset
  if val > 32767 then (val : Int) - 65536 else (val : Int)

/-- Interpretation of a bit pattern as a JS 32-bit signed integer, the result
type of the JS bitwise `|` operator (ToInt32). -/
def toInt32 (n : Nat) : Int :=
  if n % 2 ^ 32 < 2 ^ 31 then ((n % 2 ^ 32 : Nat) : Int)
  else ((n % 2 ^ 32 : Nat) : Int) - 2 ^ 32

/-- `readU32`: `p[o] | (p[o+1] << 8) | (p[o+2] << 16) | (p[o+3] << 24)`.
Every JS `|` returns a **signed** 32-bit integer; for byte-valued entries the
bit patterns of the four operands are disjoint, so the source expression
equals the `Nat.lor` of the shifted bytes reinterpreted through ToInt32. -/
def readU32 (payload : List Nat) (offset : Nat) : Int :=
  toInt32 (payload.getD offset 0 ||| (payload.getD (offset + 1) 0 <<< 8) |||
           (payload.getD (offset + 2) 0 <<< 16) ||| (payload.getD (offset + 3) 0 <<< 24))

/-- Checksum of a response frame: running XOR of the length byte, the command
byte and every payload byte (msp.js `S_LEN`/`S_CMD`/`S_PAYLOAD` accumulation). -/
def frameChecksum (c : Nat) (P : List Nat) : Nat :=
  P.foldl (· ^^^ ·) (P.length ^^^ c)

/-- The wire bytes of a valid MSP V1 response frame for command `c` and
payload `P`: `$M> len cmd payload checksum`. -/
def responseFrame (c : Nat) (P : List Nat) : List Nat :=
  [0x24, 0x4D, 0x3E, P.length, c] ++ P ++ [frameChecksum c P]

/-- Sequential stores `l[i] := b₀, l[i+1] := b₁, …` — the accumulated effect
of the `S_PAYLOAD` writes. -/
def writeSeq (l : List Nat) (i : Nat) : List Nat → List Nat
  | [] => l
  | b :: bs => writeSeq (l.set i b) (i + 1) bs

/-- The module state of cli.js: the `inCliMode` flag.  The `TextDecoder` /
`TextEncoder` instances are stateless for the ASCII protocol text (see
`textDecode`), so they contribute no further state. -/
structure CliState where
  inCliMode : Bool
deriving DecidableEq, Repr

/-- Modelled from the spec: the platform `TextEncoder` used by cli.js is not
part of the repository.  Per the spec all text commands are literal ASCII
followed by CRLF, and UTF-8 encodes ASCII characters to their code points. -/
def encodeAscii (s : List Char) : List Nat :=
  s.map Char.toNat

/-- Modelled from the spec: the platform `TextDecoder` used by `cliParse` is
not part of the repository.  The spec's device responses are free-form ASCII
text, for which streaming UTF-8 decoding is byte-to-character pass-through
with no retained decoder state. -/
def textDecode (data : List Nat) : List Char :=
  data.map Char.ofNat

/-- `sendCommand`: encode `cmd + '\r\n'` and write it to the transport.
Returns the single byte write performed. -/
def sendCommandBytes (cmd : List Char) : List Nat :=
  encodeAscii (cmd ++ ['\r', '\n'])

/-- `enterCli`: no-op when already in CLI mode; otherwise set the mode flag,
switch the receiver, and write the single trigger byte `0x23` ('#'), then
sleep.  Result: new state and the list of transport writes performed. -/
def enterCli (st : CliState) : CliState × List (List Nat) :=
  if st.inCliMode then (st, [])
  else ({ inCliMode := true }, [[0x23]])

/-- `exitCli`: no-op when not in CLI mode; otherwise send `exit\r\n`, sleep,
clear the mode flag and switch the receiver back.  Result: new state and the
list of transport writes performed. -/
def exitCli (st : CliState) : CliState × List (List Nat) :=
  if !st.inCliMode then (st, [])
  else ({ inCliMode := false }, [sendCommandBytes ['e', 'x', 'i', 't']])

/-- `cliReset`: force the mode flag back to `false` (no bytes sent). -/
def cliReset (_ : CliState) : CliState :=
  { inCliMode := false }

/-- `cliParse`: drop the chunk entirely when not in CLI mode; otherwise
decode it to text and dispatch it to the registered receiver.  The second
component is the text delivered to `onTextReceive` (`none` = the callback was
not invoked). -/
def cliParse (st : CliState) (data : List Nat) : CliState × Option (List Char) :=
  if !st.inCliMode then (st, none)
  else (st, some (textDecode data))

/-- First index at which `pat` occurs as a contiguous substring of `s`
(JS `String.prototype.indexOf`, with `none` for `-1`). -/
def indexOfSub (s pat : List Char) (i : Nat) : Option Nat :=
  match s with
  | [] => if pat.isEmpty then some i else none
  | _ :: t => if pat.isPrefixOf s then some i else indexOfSub t pat (i + 1)

/-- Last index at which `pat` occurs as a contiguous substring of `s`
(JS `String.prototype.lastIndexOf`, with `none` for `-1`). -/
def lastIndexOfSub (s pat : List Char) (i : Nat) (best : Option Nat) : Option Nat :=
  match s with
  | [] => if pat.isEmpty then some i else best
  | _ :: t => lastIndexOfSub t pat (i + 1) (if pat.isPrefixOf s then some i else best)

/-- JS `String.prototype.includes`. -/
def strIncludes (s pat : List Char) : Bool :=
  (indexOfSub s pat 0).isSome

/-- The device's idle prompt marker `'# '` (terminal.js). -/
def promptMarker : List Char :=
  ['#', ' ']

/-- The post-processing half of `finishCapture` (terminal.js): truncate the
buffer from the last occurrence of the prompt marker onward, then strip the
leading line when it looks like an echo of the sent `set` command.  The
structured "name = value" parsing of the cleaned text that follows in the
source is a collaborator concern per the spec and is not modelled. -/
def cleanCapture (buf : List Char) : List Char :=
  let content :=
    match lastIndexOfSub buf promptMarker 0 none with
    | some i => buf.take i
    | none => buf
  match indexOfSub content ['\n'] 0 with
  | some e =>
      if strIncludes (content.take e) ['s', 'e', 't'] then content.drop (e + 1) else content
  | none => content

/-- The terminal-tab state used by `onCliText` (terminal.js): the capture
session (`capturing`, `captureBuffer`, deadline timer armed-flag) plus the
live terminal output buffer and the auto-load flag. -/
structure TermState where
  capturing : Bool
  captureBuffer : List Char
  captureTimer : Bool
  termOutput : List Char
  autoLoadPending : Bool
deriving DecidableEq, Repr

/-- `onCliText`: while capturing, append the chunk to the capture buffer and
finish the capture as soon as the buffer contains the prompt marker
(`finishCapture` clears the capturing flag and the deadline timer and
post-processes the buffer); otherwise append the chunk to the terminal
output, and consume the auto-load flag when the chunk shows the prompt (the
deferred `loadSettings` it schedules is outside the captured session).  The
second component is the cleaned text delivered when a capture finished. -/
def onCliText (st : TermState) (text : List Char) : TermState × Option (List Char) :=
  if st.capturing then
    let buf := st.captureBuffer ++ text
    if strIncludes buf promptMarker then
      ({ st with capturing := false, captureBuffer := buf, captureTimer := false },
        some (cleanCapture buf))
    else
      ({ st with captureBuffer := buf }, none)
  else
    let st' := { st with termOutput := st.termOutput ++ text }
    if st'.autoLoadPending && strIncludes text promptMarker then
      ({ st' with autoLoadPending := false }, none)
    else
      (st', none)

/-- Two parsers are observationally interchangeable when they agree on the
state and on every scratch field that the state machine can still read before
overwriting it (nothing in `S_IDLE`/`S_HEADER_M`/`S_DIR`/`S_LEN`; everything
but the stale `cmd` in `S_CMD`; everything in `S_PAYLOAD`; the emission
fields in `S_CHECKSUM`). -/
def ObsEquiv (p q : MspParser) : Prop :=
  p.state = q.state ∧
  (p.state = .sCmd →
    p.len = q.len ∧ p.checksum = q.checksum ∧ p.payload = q.payload ∧
    p.payloadIdx = q.payloadIdx) ∧
  (p.state = .sPayload →
    p.len = q.len ∧ p.cmd = q.cmd ∧ p.checksum = q.checksum ∧ p.payload = q.payload ∧
    p.payloadIdx = q.payloadIdx) ∧
  (p.state = .sChecksum →
    p.cmd = q.cmd ∧ p.checksum = q.checksum ∧ p.payload = q.payload)

/-- Safety invariant for the payload store: in `S_CMD` the write index is
zeroed and the buffer has exactly the declared length, and in `S_PAYLOAD` the
write index is still strictly below the declared length. -/
def PayloadInv (p : MspParser) : Prop :=
  (p.state = .sCmd → p.payloadIdx = 0 ∧ p.payload.length = p.len) ∧
  (p.state = .sPayload → p.payloadIdx < p.len ∧ p.payload.length = p.len)

/-! ### Infrastructure lemmas about the decoder -/

@[simp]
theorem parse_nil (p : MspParser) : parse p [] = (p, []) := rfl

theorem parse_cons (p : MspParser) (c : Nat) (rest : List Nat) :
    parse p (c :: rest) =
      ((parse (processByte p c).1 rest).1,
        (processByte p c).2.toList ++ (parse (processByte p c).1 rest).2) := rfl

/-- Chunk boundaries are invisible to the decoder: parsing a concatenation is
parsing the pieces in sequence, with the emitted frames concatenated. -/
theorem parse_append (p : MspParser) (xs ys : List Nat) :
    parse p (xs ++ ys) =
      ((parse (parse p xs).1 ys).1, (parse p xs).2 ++ (parse (parse p xs).1 ys).2) := by
  induction xs generalizing p with
  | nil => simp
  | cons c xs ih =>
    simp only [List.cons_append, parse_cons, ih, List.append_assoc]

/-- Feeding chunks one at a time is the same as feeding the joined stream. -/
theorem parseChunks_eq_parse_join (p : MspParser) (chunks : List (List Nat)) :
    parseChunks p chunks = parse p chunks.flatten := by
  induction chunks generalizing p with
  | nil => simp [parseChunks]
  | cons ch chunks ih =>
    simp only [parseChunks, List.flatten_cons, ih, parse_append]

/-- Processing the five header bytes `$ M > len cmd` from any parser sitting
in `S_IDLE` fully determines the scratch state. -/
theorem parse_header (p : MspParser) (h : p.state = .sIdle) (n c : Nat) (rest : List Nat) :
    parse p (0x24 :: 0x4D :: 0x3E :: n :: c :: rest) =
      parse ⟨if n > 0 then .sPayload else .sChecksum, n, c, n ^^^ c, List.replicate n 0, 0⟩
        rest := by
  obtain ⟨st, len, cmd, chk, pay, idx⟩ := p
  simp only at h
  subst h
  simp [parse_cons, processByte]

/-- Running a nonempty batch of payload bytes that exactly fills the declared
length moves the parser from `S_PAYLOAD` to `S_CHECKSUM`, storing the bytes
sequentially and folding them into the checksum. -/
theorem parse_payload_run (bs : List Nat) :
    ∀ (len cmd chk : Nat) (pay : List Nat) (idx : Nat), bs ≠ [] → idx + bs.length = len →
      parse ⟨.sPayload, len, cmd, chk, pay, idx⟩ bs =
        (⟨.sChecksum, len, cmd, bs.foldl (· ^^^ ·) chk, writeSeq pay idx bs, len⟩, []) := by
  induction bs with
  | nil => intro _ _ _ _ _ hne _; exact absurd rfl hne
  | cons b bs ih =>
    intro len cmd chk pay idx _ hlen
    cases bs with
    | nil =>
      simp only [List.length_cons, List.length_nil, Nat.zero_add] at hlen
      subst hlen
      simp [parse_cons, processByte, writeSeq]
    | cons b' bs' =>
      have hlt : ¬ idx + 1 ≥ len := by
        simp only [List.length_cons] at hlen
        omega
      have hstep : processByte ⟨.sPayload, len, cmd, chk, pay, idx⟩ b =
          (⟨.sPayload, len, cmd, chk ^^^ b, pay.set idx b, idx + 1⟩, none) := by
        simp only [processByte]
        rw [if_neg hlt]
      rw [parse_cons, hstep,
        ih len cmd (chk ^^^ b) (pay.set idx b) (idx + 1) (by simp)
          (by simp only [List.length_cons] at hlen ⊢; omega)]
      simp [writeSeq]

/-- Sequential in-bounds stores that run to the end of the buffer replace its
tail from index `i` on. -/
theorem writeSeq_eq_take_append (bs : List Nat) :
    ∀ (l : List Nat) (i : Nat), l.length = i + bs.length →
      writeSeq l i bs = l.take i ++ bs := by
  induction bs with
  | nil =>
    intro l i h
    simp only [List.length_nil, Nat.add_zero] at h
    subst h
    simp [writeSeq]
  | cons b bs ih =>
    intro l i h
    have hi : i < l.length := by simp only [List.length_cons] at h; omega
    rw [writeSeq, ih (l.set i b) (i + 1)
      (by simp only [List.length_set, List.length_cons] at h ⊢; omega)]
    rw [List.set_eq_take_cons_drop b hi]
    rw [List.take_append_eq_append_take]
    have hlt : (l.take i).length ≤ i + 1 := by
      simp only [List.length_take]
      omega
    rw [List.take_of_length_le hlt]
    simp [List.length_take, Nat.min_eq_left (Nat.le_of_lt hi)]

/-- XOR-folding bytes below `2^8` over an accumulator below `2^8` stays
below `2^8`. -/
theorem foldl_xor_lt (l : List Nat) :
    ∀ acc : Nat, acc < 2 ^ 8 → (∀ b ∈ l, b < 2 ^ 8) → l.foldl (· ^^^ ·) acc < 2 ^ 8 := by
  induction l with
  | nil => intro acc hacc _; simpa using hacc
  | cons b bs ih =>
    intro acc hacc hb
    simp only [List.foldl_cons]
    exact ih (acc ^^^ b) (Nat.xor_lt_two_pow hacc (hb b (by simp)))
      fun x hx => hb x (by simp [hx])

/-- The running checksum of a byte-valued frame is itself a byte. -/
theorem frameChecksum_lt (c : Nat) (P : List Nat) (hc : c < 256) (hl : P.length ≤ 255)
    (hb : ∀ b ∈ P, b < 256) : frameChecksum c P < 256 := by
  have h256 : (256 : Nat) = 2 ^ 8 := by norm_num
  rw [frameChecksum, h256]
  exact foldl_xor_lt P (P.length ^^^ c)
    (Nat.xor_lt_two_pow (by omega) (by omega))
    fun b hbm => by rw [← h256]; exact hb b hbm

/-- Processing header, command and payload of a response frame from `S_IDLE`
lands the parser in `S_CHECKSUM` with the frame fully staged. -/
theorem parse_frame_body (p : MspParser) (h : p.state = .sIdle) (c : Nat) (P rest : List Nat) :
    parse p ([0x24, 0x4D, 0x3E, P.length, c] ++ P ++ rest) =
      parse ⟨.sChecksum, P.length, c, frameChecksum c P, P, P.length⟩ rest := by
  have hhdr := parse_header p h P.length c (P ++ rest)
  simp only [List.cons_append, List.nil_append] at hhdr ⊢
  rw [hhdr]
  cases hP : P with
  | nil =>
    simp [frameChecksum]
  | cons q qs =>
    rw [if_pos (by simp)]
    rw [parse_append]
    rw [parse_payload_run (q :: qs) (q :: qs).length c ((q :: qs).length ^^^ c)
      (List.replicate (q :: qs).length 0) 0 (by simp) (by simp)]
    rw [writeSeq_eq_take_append (q :: qs) (List.replicate (q :: qs).length 0) 0 (by simp)]
    simp [frameChecksum]

/-- A complete valid response frame fed from `S_IDLE` emits exactly its
`Frame` and returns to `S_IDLE`, after which the remaining stream is parsed
from the post-frame parser state. -/
theorem parse_response_frame (p : MspParser) (h : p.state = .sIdle) (c : Nat) (P rest : List Nat)
    (hc : c < 256) (hl : P.length ≤ 255) (hb : ∀ b ∈ P, b < 256) :
    parse p (responseFrame c P ++ rest) =
      ((parse ⟨.sIdle, P.length, c, frameChecksum c P, P, P.length⟩ rest).1,
        ⟨c, P⟩ :: (parse ⟨.sIdle, P.length, c, frameChecksum c P, P, P.length⟩ rest).2) := by
  have hshape : responseFrame c P ++ rest =
      [0x24, 0x4D, 0x3E, P.length, c] ++ P ++ (frameChecksum c P :: rest) := by
    simp [responseFrame]
  rw [hshape, parse_frame_body p h c P (frameChecksum c P :: rest), parse_cons]
  have hmask : frameChecksum c P &&& 0xFF = frameChecksum c P := by
    have hlt := frameChecksum_lt c P hc hl hb
    have : (0xFF : Nat) = 2 ^ 8 - 1 := by norm_num
    rw [this]
    exact Nat.and_pow_two_sub_one_of_lt_two_pow (by norm_num at hlt ⊢; omega)
  have hstep : processByte ⟨.sChecksum, P.length, c, frameChecksum c P, P, P.length⟩
      (frameChecksum c P) =
      (⟨.sIdle, P.length, c, frameChecksum c P, P, P.length⟩, some ⟨c, P⟩) := by
    simp only [processByte]
    rw [if_pos hmask]
  rw [hstep]
  simp

/-- One decoder step preserves `ObsEquiv` and produces identical emissions. -/
theorem processByte_obsEquiv {p q : MspParser} (h : ObsEquiv p q) (c : Nat) :
    (processByte p c).2 = (processByte q c).2 ∧
      ObsEquiv (processByte p c).1 (processByte q c).1 := by
  obtain ⟨ps, plen, pcmd, pchk, ppay, pidx⟩ := p
  obtain ⟨qs, qlen, qcmd, qchk, qpay, qidx⟩ := q
  obtain ⟨hs, hcmd, hpay, hchk⟩ := h
  simp only at hs hcmd hpay hchk
  subst hs
  cases ps <;>
    simp_all [processByte, ObsEquiv] <;>
    split <;>
    simp_all

/-- `ObsEquiv` parsers emit identical frame sequences on every input. -/
theorem parse_obsEquiv (data : List Nat) :
    ∀ {p q : MspParser}, ObsEquiv p q → (parse p data).2 = (parse q data).2 := by
  induction data with
  | nil => intro p q _; rfl
  | cons c rest ih =>
    intro p q h
    obtain ⟨hemit, hnext⟩ := processByte_obsEquiv h c
    simp only [parse_cons, hemit, ih hnext]

/-- One decoder step preserves the payload-store safety invariant. -/
theorem processByte_payloadInv {p : MspParser} (h : PayloadInv p) (c : Nat) :
    PayloadInv (processByte p c).1 := by
  obtain ⟨ps, plen, pcmd, pchk, ppay, pidx⟩ := p
  obtain ⟨hcmd, hpay⟩ := h
  simp only at hcmd hpay
  cases ps <;>
    simp_all [processByte, PayloadInv] <;>
    first
    | omega
    | (split <;> simp_all)

/-- The payload-store safety invariant is preserved along any input. -/
theorem parse_payloadInv (data : List Nat) :
    ∀ {p : MspParser}, PayloadInv p → PayloadInv (parse p data).1 := by
  induction data with
  | nil => intro p h; exact h
  | cons c rest ih =>
    intro p h
    simp only [parse_cons]
    exact ih (processByte_payloadInv h c)

/-- For `a < 2^n`, OR-ing in a value shifted left by `n` is plain addition:
the bit patterns are disjoint. -/
theorem lor_shiftLeft_eq_add (n : Nat) :
    ∀ {a b : Nat}, a < 2 ^ n → a ||| (b <<< n) = a + b * 2 ^ n := by
  induction n with
  | zero =>
    intro a b ha
    have : a = 0 := by omega
    subst this
    simp [Nat.shiftLeft_zero]
  | succ n ih =>
    intro a b ha
    have hpow : 2 ^ (n + 1) = 2 * 2 ^ n := by rw [Nat.pow_succ]; ring
    have hsh : (b <<< (n + 1)) = 2 * (b <<< n) := by
      simp only [Nat.shiftLeft_eq, hpow]
      ring
    have hdiv : (a ||| b <<< (n + 1)) / 2 = a / 2 ||| (b <<< n) := by
      rw [Nat.or_div_two, hsh, Nat.mul_div_cancel_left _ (by norm_num)]
    have hshmod : (b <<< (n + 1)) % 2 = 0 := by
      rw [hsh]
      simp [Nat.mul_mod_right]
    have hmod : (a ||| b <<< (n + 1)) % 2 = a % 2 := by
      have h1 := @Nat.or_mod_two_eq_one a (b <<< (n + 1))
      have h2 : (a ||| b <<< (n + 1)) % 2 < 2 := Nat.mod_lt _ (by norm_num)
      have h3 : a % 2 < 2 := Nat.mod_lt _ (by norm_num)
      omega
    have hrec : a / 2 ||| (b <<< n) = a / 2 + b * 2 ^ n := ih (by omega)
    have hself := Nat.div_add_mod (a ||| b <<< (n + 1)) 2
    have haself := Nat.div_add_mod a 2
    omega

/-! ### Claim theorems -/

/-- C1: for every command byte `c` and byte payload `P` of length at most
255, feeding the valid response frame `[0x24, 0x4D, 0x3E, len, c, P…, chk]`
into a decoder sitting in the Idle state, split into arbitrary chunks
delivered in order, causes exactly one `onMessage` emission, a frame with
command code `c` and payload exactly `P`, independent of the split points. -/
theorem c1_chunked_frame_decode (p : MspParser) (chunks : List (List Nat)) (c : Nat)
    (P : List Nat) (hst : p.state = .sIdle) (hc : c < 256) (hl : P.length ≤ 255)
    (hb : ∀ b ∈ P, b < 256) (hjoin : chunks.flatten = responseFrame c P) :
    (parseChunks p chunks).2 = [⟨c, P⟩] := by
  rw [parseChunks_eq_parse_join, hjoin]
  have h := parse_response_frame p hst c P [] hc hl hb
  simp only [List.append_nil] at h
  rw [h]
  simp

/-- Witness for C1: the attitude-style frame for command 5, payload `[7]`,
split mid-header into two chunks, decodes to exactly that one frame. -/
theorem c1_witness :
    (parseChunks MspParser.new [[0x24, 0x4D], [0x3E, 0x01, 0x05, 0x07, 0x03]]).2 =
      [⟨5, [7]⟩] :=
  c1_chunked_frame_decode MspParser.new [[0x24, 0x4D], [0x3E, 0x01, 0x05, 0x07, 0x03]] 5 [7]
    rfl (by decide) (by decide) (by decide) (by decide)

/-- C2: `mspEncode c` for a command byte `c` is exactly the 6-byte request
frame `[0x24, 0x4D, 0x3C, 0x00, c, c]` — checksum equal to the command byte
since the length byte is zero. -/
theorem c2_encode_request (c : Nat) (hc : c < 256) :
    mspEncode c = [0x24, 0x4D, 0x3C, 0x00, c, c] := by
  have hx : (0 ^^^ c) = c := Nat.zero_xor c
  have hmask : c &&& 0xFF = c := by
    have h8 : c < 2 ^ 8 := by norm_num; omega
    have h := Nat.and_pow_two_sub_one_of_lt_two_pow h8
    norm_num at h
    exact h
  simp [mspEncode, hx, hmask, Nat.mod_eq_of_lt hc]

/-- Witness for C2: command code 108 (attitude) encodes to
`[0x24, 0x4D, 0x3C, 0x00, 0x6C, 0x6C]`. -/
theorem c2_witness : mspEncode 108 = [0x24, 0x4D, 0x3C, 0x00, 0x6C, 0x6C] :=
  c2_encode_request 108 (by decide)

/-- Counterexample to C3 as stated: after the misframed header
`[0x24, 0x4D, 0x3E, 0x0A]` (declared length 10, never completed), a complete
valid response frame for command 0 follows in the stream, yet zero frames are
emitted — the valid frame's bytes are swallowed as payload of the misframe.
The second conjunct shows the same frame is decoded from Idle on its own. -/
theorem c3_counterexample :
    (parse MspParser.new ([0x24, 0x4D, 0x3E, 0x0A] ++ responseFrame 0 [])).2 = [] ∧
    (parse MspParser.new (responseFrame 0 [])).2 = [⟨0, []⟩] := by decide

/-- C3 (amended): a checksum mismatch or bad sync sequence never costs the
whole stream — every valid response frame that begins while the decoder is in
the Idle state is decoded and emitted, and the rest of the stream is then
processed from the post-frame parser state. -/
theorem c3_resync_from_idle (p : MspParser) (c : Nat) (P rest : List Nat)
    (hst : p.state = .sIdle) (hc : c < 256) (hl : P.length ≤ 255)
    (hb : ∀ b ∈ P, b < 256) :
    (parse p (responseFrame c P ++ rest)).2 =
      ⟨c, P⟩ :: (parse (parse p (responseFrame c P)).1 rest).2 := by
  have h1 := parse_response_frame p hst c P rest hc hl hb
  have h2 := parse_response_frame p hst c P [] hc hl hb
  simp only [List.append_nil] at h2
  rw [h1, h2]
  simp

/-- Witness for C3 (amended): after a frame for command 1 the next byte is
processed from the post-frame state. -/
theorem c3_witness :
    (parse MspParser.new (responseFrame 1 [] ++ [0x24])).2 =
      ⟨1, []⟩ :: (parse (parse MspParser.new (responseFrame 1 [])).1 [0x24]).2 :=
  c3_resync_from_idle MspParser.new 1 [] [0x24] rfl (by decide) (by decide) (by decide)

/-- C5: a structurally valid response frame whose trailing checksum byte `b`
differs from the running checksum is silently dropped — no emission — and the
decoder returns to Idle; a valid frame fed immediately afterwards is decoded
normally. -/
theorem c5_checksum_mismatch_drops (c : Nat) (P : List Nat) (b c2 : Nat) (P2 : List Nat)
    (hc : c < 256) (hl : P.length ≤ 255) (hb : ∀ x ∈ P, x < 256)
    (hbad : b ≠ frameChecksum c P)
    (hc2 : c2 < 256) (hl2 : P2.length ≤ 255) (hb2 : ∀ x ∈ P2, x < 256) :
    (parse MspParser.new ([0x24, 0x4D, 0x3E, P.length, c] ++ P ++ [b])).2 = [] ∧
    (parse MspParser.new ([0x24, 0x4D, 0x3E, P.length, c] ++ P ++ [b])).1.state = .sIdle ∧
    (parse MspParser.new
        (([0x24, 0x4D, 0x3E, P.length, c] ++ P ++ [b]) ++ responseFrame c2 P2)).2 =
      [⟨c2, P2⟩] := by
  have hmask : frameChecksum c P &&& 0xFF = frameChecksum c P := by
    have hlt := frameChecksum_lt c P hc hl hb
    have h8 : frameChecksum c P < 2 ^ 8 := by norm_num; omega
    have h := Nat.and_pow_two_sub_one_of_lt_two_pow h8
    norm_num at h
    exact h
  have hstep : processByte ⟨.sChecksum, P.length, c, frameChecksum c P, P, P.length⟩ b =
      (⟨.sIdle, P.length, c, frameChecksum c P, P, P.length⟩, none) := by
    simp only [processByte]
    rw [if_neg (by rw [hmask]; exact fun heq => hbad heq.symm)]
  have hbadFrame : parse MspParser.new ([0x24, 0x4D, 0x3E, P.length, c] ++ P ++ [b]) =
      (⟨.sIdle, P.length, c, frameChecksum c P, P, P.length⟩, []) := by
    rw [parse_frame_body MspParser.new rfl c P [b], parse_cons, hstep]
    simp
  refine ⟨by rw [hbadFrame], by rw [hbadFrame], ?_⟩
  rw [parse_append, hbadFrame]
  have hgood := parse_response_frame ⟨.sIdle, P.length, c, frameChecksum c P, P, P.length⟩
    rfl c2 P2 [] hc2 hl2 hb2
  simp only [List.append_nil] at hgood
  rw [hgood]
  simp

/-- Witness for C5: frame for command 1 with payload `[2]` and corrupted
checksum byte 0 emits nothing and leaves the decoder Idle; a following frame
for command 3 is decoded. -/
theorem c5_witness :
    (parse MspParser.new ([0x24, 0x4D, 0x3E, [2].length, 1] ++ [2] ++ [0])).2 = [] ∧
    (parse MspParser.new
        ([0x24, 0x4D, 0x3E, [2].length, 1] ++ [2] ++ [0])).1.state = .sIdle ∧
    (parse MspParser.new
        (([0x24, 0x4D, 0x3E, [2].length, 1] ++ [2] ++ [0]) ++ responseFrame 3 [])).2 =
      [⟨3, []⟩] :=
  c5_checksum_mismatch_drops 1 [2] 0 3 [] (by decide) (by decide) (by decide) (by decide)
    (by decide) (by decide) (by decide)

/-- C8: resetting the parser in any state — even mid-payload, and even though
only the state field is cleared while stale length, checksum and payload
scratch fields remain — yields a parser that emits exactly the same frame
sequence as a freshly constructed parser on every subsequent input. -/
theorem c8_reset_observationally_fresh (p : MspParser) (data : List Nat) :
    (parse (MspParser.reset p) data).2 = (parse MspParser.new data).2 :=
  parse_obsEquiv data
    ⟨rfl, by simp [MspParser.reset], by simp [MspParser.reset], by simp [MspParser.reset]⟩

/-- C9: starting from a fresh or reset decoder, whenever the parser is about
to process a byte in the payload state its write index is strictly below the
declared length and the payload buffer has exactly the declared length — the
payload store never writes out of bounds. -/
theorem c9_payload_store_safe (q p0 : MspParser) (pre : List Nat)
    (h0 : p0 = MspParser.new ∨ p0 = MspParser.reset q) :
    (parse p0 pre).1.state = .sPayload →
      (parse p0 pre).1.payloadIdx < (parse p0 pre).1.len ∧
      (parse p0 pre).1.payload.length = (parse p0 pre).1.len := by
  have hinv : PayloadInv p0 := by
    cases h0 with
    | inl h => subst h; exact ⟨by simp [MspParser.new], by simp [MspParser.new]⟩
    | inr h => subst h; exact ⟨by simp [MspParser.reset], by simp [MspParser.reset]⟩
  exact (parse_payloadInv pre hinv).2

/-- Witness for C9: a fresh parser mid-payload after six bytes of a
length-2 frame. -/
theorem c9_witness :
    (parse MspParser.new [0x24, 0x4D, 0x3E, 2, 5, 9]).1.payloadIdx <
      (parse MspParser.new [0x24, 0x4D, 0x3E, 2, 5, 9]).1.len ∧
    (parse MspParser.new [0x24, 0x4D, 0x3E, 2, 5, 9]).1.payload.length =
      (parse MspParser.new [0x24, 0x4D, 0x3E, 2, 5, 9]).1.len :=
  c9_payload_store_safe MspParser.new MspParser.new [0x24, 0x4D, 0x3E, 2, 5, 9]
    (Or.inl rfl) (by decide)

/-- C10: while the arbiter mode is Telemetry (`inCliMode = false`), a chunk
delivered to `cliParse` is silently dropped: the text receiver is not
invoked, nothing is decoded, and the CLI module state is unchanged. -/
theorem c10_telemetry_mode_drops (st : CliState) (data : List Nat)
    (h : st.inCliMode = false) : cliParse st data = (st, none) := by
  simp [cliParse, h]

/-- Witness for C10: two bytes delivered in Telemetry mode are dropped. -/
theorem c10_witness : cliParse ⟨false⟩ [65, 66] = (⟨false⟩, none) :=
  c10_telemetry_mode_drops ⟨false⟩ [65, 66] rfl

/-- Counterexample to C4 as stated: for payload `[0, 0, 0, 255]` at offset 0
the claimed value is `16777216 * 255 = 4278190080`, inside `[0, 2^32)`, but
`readU32` — built from JS's signed 32-bit `|` — returns the negative
`-16777216`. -/
theorem c4_counterexample :
    readU32 [0, 0, 0, 255] 0 < 0 ∧
    readU32 [0, 0, 0, 255] 0 ≠ 0 + 256 * 0 + 65536 * 0 + 16777216 * 255 := by decide

/-- C4 (amended): over byte-valued payload entries, `readU8` returns the
byte, `readU16` the unsigned little-endian 16-bit value, `readS16` its
two's-complement unwrap above 32767, and `readU32` the little-endian 32-bit
value interpreted as a **signed** 32-bit integer: the unsigned sum when it is
below `2^31`, and the sum minus `2^32` otherwise — a value in
`[-2^31, 2^31)`, not `[0, 2^32)`. -/
theorem c4_read_accessors (p : List Nat) (o : Nat)
    (h0 : p.getD o 0 < 256) (h1 : p.getD (o + 1) 0 < 256)
    (h2 : p.getD (o + 2) 0 < 256) (h3 : p.getD (o + 3) 0 < 256) :
    readU8 p o = p.getD o 0 ∧
    readU16 p o = p.getD o 0 + 256 * p.getD (o + 1) 0 ∧
    readS16 p o = (if p.getD o 0 + 256 * p.getD (o + 1) 0 > 32767
      then ((p.getD o 0 + 256 * p.getD (o + 1) 0 : Nat) : Int) - 65536
      else ((p.getD o 0 + 256 * p.getD (o + 1) 0 : Nat) : Int)) ∧
    readU32 p o = (if p.getD o 0 + 256 * p.getD (o + 1) 0 + 65536 * p.getD (o + 2) 0 +
        16777216 * p.getD (o + 3) 0 < 2147483648
      then ((p.getD o 0 + 256 * p.getD (o + 1) 0 + 65536 * p.getD (o + 2) 0 +
        16777216 * p.getD (o + 3) 0 : Nat) : Int)
      else ((p.getD o 0 + 256 * p.getD (o + 1) 0 + 65536 * p.getD (o + 2) 0 +
        16777216 * p.getD (o + 3) 0 : Nat) : Int) - 4294967296) := by
  have hp8 : (2 : Nat) ^ 8 = 256 := by norm_num
  have hp16 : (2 : Nat) ^ 16 = 65536 := by norm_num
  have hp24 : (2 : Nat) ^ 24 = 16777216 := by norm_num
  have hp31 : (2 : Nat) ^ 31 = 2147483648 := by norm_num
  have hp32 : (2 : Nat) ^ 32 = 4294967296 := by norm_num
  have e16 : p.getD o 0 ||| (p.getD (o + 1) 0 <<< 8) =
      p.getD o 0 + 256 * p.getD (o + 1) 0 := by
    have h := lor_shiftLeft_eq_add 8 (a := p.getD o 0) (b := p.getD (o + 1) 0)
      (by rw [hp8]; exact h0)
    rw [hp8] at h
    rw [h]
    ring
  have hu16 : readU16 p o = p.getD o 0 + 256 * p.getD (o + 1) 0 := by
    rw [readU16, e16]
  refine ⟨rfl, hu16, ?_, ?_⟩
  · rw [readS16, hu16]
  · have lt16 : p.getD o 0 + 256 * p.getD (o + 1) 0 < 2 ^ 16 := by rw [hp16]; omega
    have e24 : (p.getD o 0 + 256 * p.getD (o + 1) 0) ||| (p.getD (o + 2) 0 <<< 16) =
        p.getD o 0 + 256 * p.getD (o + 1) 0 + 65536 * p.getD (o + 2) 0 := by
      have h := lor_shiftLeft_eq_add 16 (b := p.getD (o + 2) 0) lt16
      rw [hp16] at h
      rw [h]
      ring
    have lt24 : p.getD o 0 + 256 * p.getD (o + 1) 0 + 65536 * p.getD (o + 2) 0 <
        2 ^ 24 := by rw [hp24]; omega
    have e32 : (p.getD o 0 + 256 * p.getD (o + 1) 0 + 65536 * p.getD (o + 2) 0) |||
        (p.getD (o + 3) 0 <<< 24) =
        p.getD o 0 + 256 * p.getD (o + 1) 0 + 65536 * p.getD (o + 2) 0 +
          16777216 * p.getD (o + 3) 0 := by
      have h := lor_shiftLeft_eq_add 24 (b := p.getD (o + 3) 0) lt24
      rw [hp24] at h
      rw [h]
      ring
    rw [readU32, e16, e24, e32, toInt32]
    have hmod : (p.getD o 0 + 256 * p.getD (o + 1) 0 + 65536 * p.getD (o + 2) 0 +
        16777216 * p.getD (o + 3) 0) % 2 ^ 32 =
        p.getD o 0 + 256 * p.getD (o + 1) 0 + 65536 * p.getD (o + 2) 0 +
          16777216 * p.getD (o + 3) 0 :=
      Nat.mod_eq_of_lt (by rw [hp32]; omega)
    rw [hmod, hp31]
    norm_num

/-- Witness for C4 (amended): payload `[1, 2, 3, 4]` at offset 0. -/
theorem c4_witness :
    readU8 [1, 2, 3, 4] 0 = [1, 2, 3, 4].getD 0 0 ∧
    readU16 [1, 2, 3, 4] 0 = [1, 2, 3, 4].getD 0 0 + 256 * [1, 2, 3, 4].getD 1 0 ∧
    readS16 [1, 2, 3, 4] 0 = (if [1, 2, 3, 4].getD 0 0 + 256 * [1, 2, 3, 4].getD 1 0 > 32767
      then (([1, 2, 3, 4].getD 0 0 + 256 * [1, 2, 3, 4].getD 1 0 : Nat) : Int) - 65536
      else (([1, 2, 3, 4].getD 0 0 + 256 * [1, 2, 3, 4].getD 1 0 : Nat) : Int)) ∧
    readU32 [1, 2, 3, 4] 0 = (if [1, 2, 3, 4].getD 0 0 + 256 * [1, 2, 3, 4].getD 1 0 +
        65536 * [1, 2, 3, 4].getD 2 0 + 16777216 * [1, 2, 3, 4].getD 3 0 < 2147483648
      then (([1, 2, 3, 4].getD 0 0 + 256 * [1, 2, 3, 4].getD 1 0 +
        65536 * [1, 2, 3, 4].getD 2 0 + 16777216 * [1, 2, 3, 4].getD 3 0 : Nat) : Int)
      else (([1, 2, 3, 4].getD 0 0 + 256 * [1, 2, 3, 4].getD 1 0 +
        65536 * [1, 2, 3, 4].getD 2 0 + 16777216 * [1, 2, 3, 4].getD 3 0 : Nat) : Int) -
        4294967296) :=
  c4_read_accessors [1, 2, 3, 4] 0 (by decide) (by decide) (by decide) (by decide)

/-- C6: from Telemetry mode, `enterCli` immediately followed by `exitCli`
returns the arbiter to Telemetry and performs exactly two transport writes in
order — the single trigger byte `0x23`, then the ASCII text `exit` followed
by CRLF; and each transition is a no-op (no writes, no mode change) when the
arbiter is already in that transition's target mode. -/
theorem c6_enter_exit_roundtrip :
    (exitCli (enterCli ⟨false⟩).1).1 = ⟨false⟩ ∧
    (enterCli ⟨false⟩).2 ++ (exitCli (enterCli ⟨false⟩).1).2 =
      [[0x23], encodeAscii ['e', 'x', 'i', 't', '\r', '\n']] ∧
    enterCli ⟨true⟩ = (⟨true⟩, []) ∧
    exitCli ⟨false⟩ = (⟨false⟩, []) := by decide

/-- C7: an active capture session whose buffer accumulates to `"ok\r\n# "`
finishes on that chunk itself — the capturing flag and the deadline timer are
cleared without the timer firing — and the post-processing strips the
trailing prompt while keeping the leading line (it is not a `set` echo),
delivering the cleaned text `"ok\r\n"`. -/
theorem c7_capture_finishes_on_prompt :
    onCliText ⟨true, [], true, [], false⟩ ['o', 'k', '\r', '\n', '#', ' '] =
      (⟨false, ['o', 'k', '\r', '\n', '#', ' '], false, [], false⟩,
        some ['o', 'k', '\r', '\n']) := by decide

end DRehm
